import Mathlib

/-!
Verification of the digitaltwin simulation core.

This file gives a shallow embedding of the two model files of the
repository (the per-day disease/drug simulation loop and the treatment
ranker built on top of it) and proves the specified properties about
them.

Modelling conventions:
* Python floats are modelled as real numbers.
* The per-day Gaussian noise draws are modelled as an explicit stream
  `noise : ℕ → ℝ × ℝ` giving the (viral, symptom) noise for each day;
  all theorems quantify over arbitrary noise streams.
* The `days` argument is an integer, and the Python loop
  `for day in range(days + 1)` is modelled by iterating
  `(days + 1).toNat` times, which is empty for negative `days`,
  matching Python `range` semantics.
* Python dicts with `.get(key, default)` access (patients and drugs)
  are modelled as structures with `Option` fields read via `getD`.
-/

namespace DigitalTwin

/-- The clamp `max(0.0, min(100.0, x))` used throughout the engine. -/
def clamp01 (x : ℝ) : ℝ := max 0.0 (min 100.0 x)

/-- The organ keys appearing in the engine's organ dictionary. -/
inductive Organ where
  | heart
  | liver
  | kidney
  | lungs
  | immune
deriving DecidableEq

/-- Static per-disease parameters: progression strength and organ stress weights. -/
structure DiseaseProfile where
  strength : ℝ
  organ_weights : List (Organ × ℝ)

/-- The `DISEASE_PARAMS` table, keyed by disease name; unknown names are absent. -/
def DISEASE_PARAMS : String → Option DiseaseProfile
  | "Influenza" =>
      some ⟨0.8, [(.lungs, 0.3), (.heart, 0.1), (.liver, 0.1), (.kidney, 0.05)]⟩
  | "Malaria" => some ⟨1.2, [(.liver, 0.4), (.kidney, 0.2)]⟩
  | "Common Cold" => some ⟨0.5, [(.lungs, 0.2)]⟩
  | "COVID-19" => some ⟨1.3, [(.lungs, 0.5), (.heart, 0.2)]⟩
  | "Dengue" => some ⟨1.1, [(.liver, 0.3), (.kidney, 0.2)]⟩
  | "Synthetic Pathogen" =>
      some ⟨1.5, [(.lungs, 0.2), (.liver, 0.2), (.heart, 0.2), (.kidney, 0.2)]⟩
  | _ => none

/-- Organ stress weights for a disease name: `.get(name, {}).get("organ_weights", {})`. -/
def diseaseWeights (disease_name : String) : List (Organ × ℝ) :=
  ((DISEASE_PARAMS disease_name).map DiseaseProfile.organ_weights).getD []

/-- Progression strength for a disease name: `.get(name, {}).get("strength", 1.0)`. -/
def diseaseStrength (disease_name : String) : ℝ :=
  ((DISEASE_PARAMS disease_name).map DiseaseProfile.strength).getD 1.0

/-- A drug dict; each field may be absent, defaults are applied at the access site. -/
structure Drug where
  name : Option String := none
  dose : Option ℝ := none
  efficacy : Option ℝ := none
  toxicity : Option ℝ := none
  half_life : Option ℝ := none

/-- A patient dict; the engine only reads the `immune` key (default 60). -/
structure Patient where
  immune : Option ℝ := none

/-- `simulate_drug_effect(drug, day)`: per-day (efficacy, toxicity) contribution,
with exponential concentration decay and the half-life floored at 0.1. -/
noncomputable def simulate_drug_effect (drug : Drug) (day : ℕ) : ℝ × ℝ :=
  let half_life := max 0.1 (drug.half_life.getD 12.0)
  let k := Real.log 2 / half_life
  let concentration := drug.dose.getD 1.0 * Real.exp (-k * (day : ℝ))
  let efficacy := drug.efficacy.getD 0.5 * concentration
  let toxicity := drug.toxicity.getD 0.1 * concentration
  (efficacy, toxicity)

/-- The organ-health dictionary of the engine. -/
structure Organs where
  heart : ℝ
  liver : ℝ
  kidney : ℝ
  lungs : ℝ
  immune : ℝ

/-- Read an organ value by key. -/
def Organs.get (o : Organs) : Organ → ℝ
  | .heart => o.heart
  | .liver => o.liver
  | .kidney => o.kidney
  | .lungs => o.lungs
  | .immune => o.immune

/-- Write an organ value by key. -/
def Organs.set (o : Organs) : Organ → ℝ → Organs
  | .heart, v => { o with heart := v }
  | .liver, v => { o with liver := v }
  | .kidney, v => { o with kidney := v }
  | .lungs, v => { o with lungs := v }
  | .immune, v => { o with immune := v }

/-- The loop `for organ, w in weights.items(): organs[organ] -= symptom * w * 0.1`. -/
def applyOrganStress (organs : Organs) (weights : List (Organ × ℝ)) (symptom : ℝ) : Organs :=
  weights.foldl (fun o p => o.set p.1 (o.get p.1 - symptom * p.2 * 0.1)) organs

/-- The loop `for key in organs: organs[key] = max(0.0, min(100.0, organs[key]))`. -/
def clampOrgans (o : Organs) : Organs :=
  ⟨clamp01 o.heart, clamp01 o.liver, clamp01 o.kidney, clamp01 o.lungs, clamp01 o.immune⟩

/-- `update_organs(organs, drug_toxicity, disease_name, symptom)`. -/
def update_organs (organs : Organs) (drug_toxicity : ℝ) (disease_name : String)
    (symptom : ℝ) : Organs :=
  let o1 : Organs :=
    { organs with
      liver := organs.liver - drug_toxicity * 1.2
      kidney := organs.kidney - drug_toxicity * 1.0
      heart := organs.heart - drug_toxicity * 0.5 }
  let o2 := applyOrganStress o1 (diseaseWeights disease_name) symptom
  clampOrgans o2

/-- `update_disease_state(viral, symptom, drug_effect, immune_factor, disease_strength)`
with the two Gaussian draws passed in explicitly.  Note that the incoming
`symptom` value is not read: the new symptom severity is recomputed from the
just-updated viral load. -/
def update_disease_state (viral _symptom drug_effect immune_factor disease_strength : ℝ)
    (viralNoise symptomNoise : ℝ) : ℝ × ℝ :=
  let v1 := viral + (viral * 0.05 * disease_strength - drug_effect * 4.5 - immune_factor * 2)
  let v2 := clamp01 (v1 + viralNoise)
  let s1 := clamp01 (v2 * 0.85 + drug_effect * 0.5)
  let s2 := clamp01 (s1 + symptomNoise)
  (v2, s2)

/-- One row of the simulation output DataFrame. -/
structure SimRecord where
  day : ℕ := 0
  viral_load : ℝ := 0
  symptom_severity : ℝ := 0
  drug_effect_total : ℝ := 0
  drug_toxicity : ℝ := 0
  immune_strength : ℝ := 0
  heart : ℝ := 0
  liver : ℝ := 0
  kidney : ℝ := 0
  lungs : ℝ := 0
  avg_organ_health : ℝ := 0
deriving Inhabited

/-- The mutable state carried between loop iterations of `run_simulation`. -/
structure SimState where
  viral : ℝ
  symptom : ℝ
  organs : Organs

/-- The totals loop: sum `simulate_drug_effect` over the drug list for one day. -/
noncomputable def drugTotals (drugs : List Drug) (day : ℕ) : ℝ × ℝ :=
  drugs.foldl
    (fun acc drug =>
      let et := simulate_drug_effect drug day
      (acc.1 + et.1, acc.2 + et.2))
    (0.0, 0.0)

/-- The body of the day loop of `run_simulation`: produce the day's record
and the state for the next day. -/
noncomputable def simStep (disease_name : String) (disease_strength : ℝ) (drugs : List Drug)
    (noise : ℕ → ℝ × ℝ) (day : ℕ) (st : SimState) : SimRecord × SimState :=
  let totals := drugTotals drugs day
  let organs := update_organs st.organs totals.2 disease_name st.symptom
  let immune_factor := organs.immune / 100.0
  let vs := update_disease_state st.viral st.symptom totals.1 immune_factor disease_strength
    (noise day).1 (noise day).2
  let avg_organ_health := (organs.heart + organs.liver + organs.kidney + organs.lungs) / 4
  ({ day := day
     viral_load := vs.1
     symptom_severity := vs.2
     drug_effect_total := totals.1
     drug_toxicity := totals.2
     immune_strength := organs.immune
     heart := organs.heart
     liver := organs.liver
     kidney := organs.kidney
     lungs := organs.lungs
     avg_organ_health := avg_organ_health },
   { viral := vs.1, symptom := vs.2, organs := organs })

/-- Iterate `simStep` for `n` days starting at day index `day`. -/
noncomputable def simSteps (disease_name : String) (disease_strength : ℝ) (drugs : List Drug)
    (noise : ℕ → ℝ × ℝ) : ℕ → ℕ → SimState → List SimRecord
  | 0, _, _ => []
  | n + 1, day, st =>
    let rs := simStep disease_name disease_strength drugs noise day st
    rs.1 :: simSteps disease_name disease_strength drugs noise n (day + 1) rs.2

/-- The initial state of `run_simulation`: all organs at 100 except the immune
value taken from the patient (default 60), viral load `50 * strength`, symptom
severity `viral * 0.7`. -/
def initState (patient : Patient) (disease_name : String) : SimState :=
  { viral := 50.0 * diseaseStrength disease_name
    symptom := 50.0 * diseaseStrength disease_name * 0.7
    organs :=
      { heart := 100.0, liver := 100.0, kidney := 100.0, lungs := 100.0
        immune := patient.immune.getD 60 } }

/-- `run_simulation(patient, disease_name, drugs, days)`: the day loop runs over
`range(days + 1)`, so `(days + 1).toNat` iterations starting at day 0. -/
noncomputable def run_simulation (patient : Patient) (disease_name : String)
    (drugs : List Drug) (days : ℤ) (noise : ℕ → ℝ × ℝ) : List SimRecord :=
  simSteps disease_name (diseaseStrength disease_name) drugs noise (days + 1).toNat 0
    (initState patient disease_name)

/-- One entry of the ranking produced by `rank_treatments`. -/
structure RankingEntry where
  name : String
  score : ℝ
  final_viral : ℝ
  final_symptoms : ℝ
  avg_organ_health : ℝ
  drug_toxicity : ℝ

/-- The per-drug loop body of `rank_treatments`: run the engine with this single
drug under disease name "Generic" for `len(sim_df) - 1` days, take the final
row, and score it. -/
noncomputable def rankEntryFor (patient : Patient) (simLen : ℕ) (noise : ℕ → ℝ × ℝ)
    (d : Drug) : RankingEntry :=
  let df := run_simulation patient "Generic" [d] ((simLen : ℤ) - 1) noise
  let final := df.getLastD default
  let score := (100 - final.viral_load) * 0.5 + (100 - final.symptom_severity) * 0.3 +
    final.avg_organ_health * 0.2 - final.drug_toxicity * 2
  { name := d.name.getD "drug"
    score := score
    final_viral := final.viral_load
    final_symptoms := final.symptom_severity
    avg_organ_health := final.avg_organ_health
    drug_toxicity := final.drug_toxicity }

/-- The `results` list accumulated by `rank_treatments` before sorting, in drug
input order; each call to the engine consumes its own noise stream
`noise i` (the Python code draws fresh randomness per run). -/
noncomputable def rankResults (sim_df : List SimRecord) (drugs : List Drug) (patient : Patient)
    (noise : ℕ → ℕ → ℝ × ℝ) : List RankingEntry :=
  drugs.enum.map fun p => rankEntryFor patient sim_df.length (noise p.1) p.2

/-- The descending-by-score comparison used by
`sorted(results, key=lambda x: x["score"], reverse=True)`. -/
noncomputable def scoreDesc (a b : RankingEntry) : Bool := decide (b.score ≤ a.score)

/-- The explainability dict literal returned by `rank_treatments`. -/
def staticExplainability : List (String × String) :=
  [("note", "Synthetic ranking logic (educational only)"),
   ("logic",
    "Higher avg organ health + lower viral load/symptoms + lower toxicity increases score")]

/-- `rank_treatments(sim_df, drugs, patient)`: empty drug list short-circuits to
`([], {})`; otherwise score each drug in isolation and sort descending by
score with Python's stable sort. -/
noncomputable def rank_treatments (sim_df : List SimRecord) (drugs : List Drug)
    (patient : Patient) (noise : ℕ → ℕ → ℝ × ℝ) :
    List RankingEntry × List (String × String) :=
  if drugs.isEmpty then ([], [])
  else ((rankResults sim_df drugs patient noise).mergeSort scoreDesc, staticExplainability)

/-! ### Basic lemmas about the clamp and the day loop -/

theorem clamp01_nonneg (x : ℝ) : 0 ≤ clamp01 x := by
  unfold clamp01
  norm_num [le_max_iff]

theorem clamp01_le_100 (x : ℝ) : clamp01 x ≤ 100 := by
  unfold clamp01
  simp only [max_le_iff, min_le_iff]
  norm_num

theorem clamp01_eq_self {x : ℝ} (h0 : 0 ≤ x) (h1 : x ≤ 100) : clamp01 x = x := by
  unfold clamp01
  rw [min_eq_right (by norm_num [h1]), max_eq_right (by norm_num [h0])]

theorem simSteps_map_day (dn : String) (ds : ℝ) (drugs : List Drug) (noise : ℕ → ℝ × ℝ) :
    ∀ (n day : ℕ) (st : SimState),
      (simSteps dn ds drugs noise n day st).map SimRecord.day = List.range' day n := by
  intro n
  induction n with
  | zero => intro day st; simp [simSteps]
  | succ n ih =>
    intro day st
    rw [List.range'_succ]
    simp [simSteps, ih, simStep]

theorem simSteps_length (dn : String) (ds : ℝ) (drugs : List Drug) (noise : ℕ → ℝ × ℝ)
    (n day : ℕ) (st : SimState) : (simSteps dn ds drugs noise n day st).length = n := by
  have h := congrArg List.length (simSteps_map_day dn ds drugs noise n day st)
  simpa using h

/-- C2: a run with horizon `D` (a non-negative integer) produces exactly `D + 1`
records whose `day` fields are `0, 1, ..., D` in strictly ascending order with no
gaps, i.e. the list of day fields is exactly `range (D + 1)`. -/
theorem run_simulation_day_sequence (patient : Patient) (disease_name : String)
    (drugs : List Drug) (D : ℕ) (noise : ℕ → ℝ × ℝ) :
    (run_simulation patient disease_name drugs (D : ℤ) noise).length = D + 1 ∧
    (run_simulation patient disease_name drugs (D : ℤ) noise).map SimRecord.day =
      List.range (D + 1) := by
  have htn : ((D : ℤ) + 1).toNat = D + 1 := by omega
  constructor
  · rw [run_simulation]
    simp only [htn]
    exact simSteps_length _ _ _ _ _ _ _
  · rw [run_simulation, List.range_eq_range']
    simp only [htn]
    exact simSteps_map_day _ _ _ _ _ _ _

/-- C10: for a negative `days` argument the day loop `range(days + 1)` is empty,
so `run_simulation` returns an empty record sequence and raises no error. -/
theorem run_simulation_negative_days (patient : Patient) (disease_name : String)
    (drugs : List Drug) (days : ℤ) (noise : ℕ → ℝ × ℝ) (h : days < 0) :
    run_simulation patient disease_name drugs days noise = [] := by
  have htn : (days + 1).toNat = 0 := by omega
  rw [run_simulation]
  simp only [htn]
  rfl

/-- Witness for C10 at the concrete input `days = -1`. -/
theorem run_simulation_negative_days_witness :
    run_simulation ⟨some 60⟩ "Influenza" [] (-1) (fun _ => (0, 0)) = [] :=
  run_simulation_negative_days ⟨some 60⟩ "Influenza" [] (-1) (fun _ => (0, 0)) (by decide)

/-! ### C1: range invariant of all recorded physiological values -/

/-- The documented field ranges for a drug: efficacy in [0,1], toxicity in [0,1],
dose in [0,10], half-life positive (when the fields are present). -/
def validDrug (d : Drug) : Prop :=
  (∀ e ∈ d.efficacy, 0 ≤ e ∧ e ≤ 1) ∧
  (∀ t ∈ d.toxicity, 0 ≤ t ∧ t ≤ 1) ∧
  (∀ x ∈ d.dose, 0 ≤ x ∧ x ≤ 10) ∧
  (∀ h ∈ d.half_life, 0 < h)

/-- Every field of a single day's record that tracks a physiological value is a
clamp output, hence lies in [0,100]. -/
theorem simStep_record_bounds (dn : String) (ds : ℝ) (drugs : List Drug)
    (noise : ℕ → ℝ × ℝ) (day : ℕ) (st : SimState) :
    (0 ≤ (simStep dn ds drugs noise day st).1.viral_load ∧
      (simStep dn ds drugs noise day st).1.viral_load ≤ 100) ∧
    (0 ≤ (simStep dn ds drugs noise day st).1.symptom_severity ∧
      (simStep dn ds drugs noise day st).1.symptom_severity ≤ 100) ∧
    (0 ≤ (simStep dn ds drugs noise day st).1.heart ∧
      (simStep dn ds drugs noise day st).1.heart ≤ 100) ∧
    (0 ≤ (simStep dn ds drugs noise day st).1.liver ∧
      (simStep dn ds drugs noise day st).1.liver ≤ 100) ∧
    (0 ≤ (simStep dn ds drugs noise day st).1.kidney ∧
      (simStep dn ds drugs noise day st).1.kidney ≤ 100) ∧
    (0 ≤ (simStep dn ds drugs noise day st).1.lungs ∧
      (simStep dn ds drugs noise day st).1.lungs ≤ 100) := by
  simp only [simStep, update_disease_state, update_organs, clampOrgans]
  exact ⟨⟨clamp01_nonneg _, clamp01_le_100 _⟩, ⟨clamp01_nonneg _, clamp01_le_100 _⟩,
    ⟨clamp01_nonneg _, clamp01_le_100 _⟩, ⟨clamp01_nonneg _, clamp01_le_100 _⟩,
    ⟨clamp01_nonneg _, clamp01_le_100 _⟩, ⟨clamp01_nonneg _, clamp01_le_100 _⟩⟩

theorem simSteps_mem_bounds (dn : String) (ds : ℝ) (drugs : List Drug)
    (noise : ℕ → ℝ × ℝ) :
    ∀ (n day : ℕ) (st : SimState), ∀ r ∈ simSteps dn ds drugs noise n day st,
      (0 ≤ r.viral_load ∧ r.viral_load ≤ 100) ∧
      (0 ≤ r.symptom_severity ∧ r.symptom_severity ≤ 100) ∧
      (0 ≤ r.heart ∧ r.heart ≤ 100) ∧
      (0 ≤ r.liver ∧ r.liver ≤ 100) ∧
      (0 ≤ r.kidney ∧ r.kidney ≤ 100) ∧
      (0 ≤ r.lungs ∧ r.lungs ≤ 100) := by
  intro n
  induction n with
  | zero => intro day st r hr; simp [simSteps] at hr
  | succ n ih =>
    intro day st r hr
    rw [simSteps] at hr
    rcases List.mem_cons.mp hr with h | h
    · subst h; exact simStep_record_bounds dn ds drugs noise day st
    · exact ih (day + 1) _ r h

/-- C1: for a patient with immune in [0,100], drugs with fields in their
documented ranges, and any non-negative horizon, every produced record has
viral load, symptom severity, and all four organ health values within [0,100]
inclusive — the clamps are applied after the noise terms are added, so this
holds for arbitrary noise. -/
theorem run_simulation_bounds (patient : Patient) (disease_name : String)
    (drugs : List Drug) (days : ℤ) (noise : ℕ → ℝ × ℝ)
    (hdays : 0 ≤ days)
    (himm0 : 0 ≤ patient.immune.getD 60) (himm1 : patient.immune.getD 60 ≤ 100)
    (hdrugs : ∀ d ∈ drugs, validDrug d) :
    ∀ r ∈ run_simulation patient disease_name drugs days noise,
      (0 ≤ r.viral_load ∧ r.viral_load ≤ 100) ∧
      (0 ≤ r.symptom_severity ∧ r.symptom_severity ≤ 100) ∧
      (0 ≤ r.heart ∧ r.heart ≤ 100) ∧
      (0 ≤ r.liver ∧ r.liver ≤ 100) ∧
      (0 ≤ r.kidney ∧ r.kidney ≤ 100) ∧
      (0 ≤ r.lungs ∧ r.lungs ≤ 100) := by
  intro r hr
  rw [run_simulation] at hr
  exact simSteps_mem_bounds _ _ _ _ _ _ _ r hr

/-- Witness for C1 at a concrete input: the single record of a zero-day run of
"Common Cold" with no drugs has a non-negative, bounded viral load. -/
theorem run_simulation_bounds_witness :
    0 ≤ ((run_simulation ⟨some 60⟩ "Common Cold" [] 0 (fun _ => (0, 0))).getLastD
      default).viral_load ∧
    ((run_simulation ⟨some 60⟩ "Common Cold" [] 0 (fun _ => (0, 0))).getLastD
      default).viral_load ≤ 100 := by
  have hlen : (run_simulation ⟨some 60⟩ "Common Cold" [] 0 (fun _ => (0, 0))).length = 1 := by
    rw [run_simulation]
    exact simSteps_length _ _ _ _ _ _ _
  obtain ⟨a, ha⟩ := List.length_eq_one.mp hlen
  have hmem : (run_simulation ⟨some 60⟩ "Common Cold" [] 0 (fun _ => (0, 0))).getLastD
      default ∈ run_simulation ⟨some 60⟩ "Common Cold" [] 0 (fun _ => (0, 0)) := by
    rw [ha]; simp
  exact (run_simulation_bounds ⟨some 60⟩ "Common Cold" [] 0 (fun _ => (0, 0))
    (by decide) (by norm_num [Option.getD_some]) (by norm_num [Option.getD_some])
    (by simp) _ hmem).1

/-! ### C4: the immune organ value is never changed during a run -/

theorem no_immune_aux {l : List (Organ × ℝ)}
    (hl : (l.map Prod.fst).all (fun o => decide (o ≠ Organ.immune)) = true) :
    ∀ p ∈ l, p.1 ≠ Organ.immune := by
  intro p hp
  have h1 := List.all_eq_true.mp hl p.1 (List.mem_map_of_mem Prod.fst hp)
  simpa using h1

/-- No disease in the parameter table applies stress to the immune organ. -/
theorem diseaseWeights_no_immune (dn : String) :
    ∀ p ∈ diseaseWeights dn, p.1 ≠ Organ.immune := by
  intro p hp
  unfold diseaseWeights DISEASE_PARAMS at hp
  split at hp <;> exact no_immune_aux (by decide) p hp

theorem Organs.set_immune_of_ne (o : Organs) (k : Organ) (v : ℝ) (h : k ≠ Organ.immune) :
    (o.set k v).immune = o.immune := by
  cases k <;> first | rfl | exact absurd rfl h

theorem applyOrganStress_immune (s : ℝ) :
    ∀ (ws : List (Organ × ℝ)) (o : Organs), (∀ p ∈ ws, p.1 ≠ Organ.immune) →
      (applyOrganStress o ws s).immune = o.immune := by
  intro ws
  induction ws with
  | nil => intro o _; rfl
  | cons p ws ih =>
    intro o h
    show (applyOrganStress (o.set p.1 (o.get p.1 - s * p.2 * 0.1)) ws s).immune = o.immune
    rw [ih _ fun q hq => h q (List.mem_cons_of_mem _ hq)]
    exact Organs.set_immune_of_ne o p.1 _ (h p (List.mem_cons_self _ _))

theorem update_organs_immune (o : Organs) (tox : ℝ) (dn : String) (s : ℝ)
    (h0 : 0 ≤ o.immune) (h1 : o.immune ≤ 100) :
    (update_organs o tox dn s).immune = o.immune := by
  unfold update_organs
  simp only [clampOrgans]
  rw [applyOrganStress_immune s (diseaseWeights dn) _ (diseaseWeights_no_immune dn)]
  exact clamp01_eq_self h0 h1

theorem simSteps_immune (dn : String) (ds : ℝ) (drugs : List Drug) (noise : ℕ → ℝ × ℝ)
    (v : ℝ) (h0 : 0 ≤ v) (h1 : v ≤ 100) :
    ∀ (n day : ℕ) (st : SimState), st.organs.immune = v →
      ∀ r ∈ simSteps dn ds drugs noise n day st, r.immune_strength = v := by
  intro n
  induction n with
  | zero => intro day st _ r hr; simp [simSteps] at hr
  | succ n ih =>
    intro day st hst r hr
    have him0 : 0 ≤ st.organs.immune := by rw [hst]; exact h0
    have him1 : st.organs.immune ≤ 100 := by rw [hst]; exact h1
    have hkeep : (update_organs st.organs (drugTotals drugs day).2 dn st.symptom).immune = v := by
      rw [update_organs_immune _ _ _ _ him0 him1, hst]
    rw [simSteps] at hr
    rcases List.mem_cons.mp hr with h | h
    · subst h
      show (update_organs st.organs (drugTotals drugs day).2 dn st.symptom).immune = v
      exact hkeep
    · exact ih (day + 1) _ hkeep r h

/-- C4: for a patient whose immune input (default 60 when absent) lies in
[0,100], the recorded `immune_strength` equals that input on every day of a
run: neither drug toxicity, nor disease stress, nor the clamp changes it. -/
theorem run_simulation_immune_constant (patient : Patient) (disease_name : String)
    (drugs : List Drug) (days : ℤ) (noise : ℕ → ℝ × ℝ)
    (h0 : 0 ≤ patient.immune.getD 60) (h1 : patient.immune.getD 60 ≤ 100) :
    ∀ r ∈ run_simulation patient disease_name drugs days noise,
      r.immune_strength = patient.immune.getD 60 := by
  intro r hr
  rw [run_simulation] at hr
  exact simSteps_immune _ _ _ _ _ h0 h1 _ _ _ rfl r hr

/-- Witness for C4 at a concrete input: a one-day Malaria run for a patient
with immune input 42 records `immune_strength = 42`. -/
theorem run_simulation_immune_constant_witness :
    ((run_simulation ⟨some 42⟩ "Malaria" [] 0 (fun _ => (0, 0))).getLastD
      default).immune_strength = 42 := by
  have hlen : (run_simulation ⟨some 42⟩ "Malaria" [] 0 (fun _ => (0, 0))).length = 1 := by
    rw [run_simulation]
    exact simSteps_length _ _ _ _ _ _ _
  obtain ⟨a, ha⟩ := List.length_eq_one.mp hlen
  have hmem : (run_simulation ⟨some 42⟩ "Malaria" [] 0 (fun _ => (0, 0))).getLastD
      default ∈ run_simulation ⟨some 42⟩ "Malaria" [] 0 (fun _ => (0, 0)) := by
    rw [ha]; simp
  have h := run_simulation_immune_constant ⟨some 42⟩ "Malaria" [] 0 (fun _ => (0, 0))
    (by norm_num [Option.getD_some]) (by norm_num [Option.getD_some]) _ hmem
  simpa using h

/-! ### C5 and C8: drug-effect totals per day -/

/-- The record at index `i` of the day loop carries exactly the summed drug
effect and toxicity of day `day + i`. -/
theorem simSteps_getD_totals (dn : String) (ds : ℝ) (drugs : List Drug)
    (noise : ℕ → ℝ × ℝ) :
    ∀ (n i day : ℕ) (st : SimState), i < n →
      ((simSteps dn ds drugs noise n day st).getD i default).drug_effect_total =
        (drugTotals drugs (day + i)).1 ∧
      ((simSteps dn ds drugs noise n day st).getD i default).drug_toxicity =
        (drugTotals drugs (day + i)).2 := by
  intro n
  induction n with
  | zero => intro i day st h; exact absurd h (Nat.not_lt_zero i)
  | succ n ih =>
    intro i day st h
    rw [simSteps]
    cases i with
    | zero =>
      rw [List.getD_cons_zero]
      constructor
      · show (drugTotals drugs day).1 = (drugTotals drugs (day + 0)).1
        rw [Nat.add_zero]
      · show (drugTotals drugs day).2 = (drugTotals drugs (day + 0)).2
        rw [Nat.add_zero]
    | succ i =>
      rw [List.getD_cons_succ]
      have hi := ih i (day + 1) (simStep dn ds drugs noise day st).2 (by omega)
      have e : day + 1 + i = day + (i + 1) := by omega
      rw [e] at hi
      exact hi

/-- C5: with an empty drug list every record of a run carries zero total drug
effect and zero total toxicity, and `rank_treatments` on an empty drug list
returns the empty ranking with the empty explainability dict, without error. -/
theorem empty_drug_list_behaviour (patient : Patient) (disease_name : String) (days : ℤ)
    (noise : ℕ → ℝ × ℝ) (sim_df : List SimRecord) (patient2 : Patient)
    (noise2 : ℕ → ℕ → ℝ × ℝ) :
    (∀ i : ℕ,
      ((run_simulation patient disease_name [] days noise).getD i default).drug_effect_total
        = 0 ∧
      ((run_simulation patient disease_name [] days noise).getD i default).drug_toxicity
        = 0) ∧
    rank_treatments sim_df [] patient2 noise2 = ([], []) := by
  constructor
  · intro i
    by_cases hi : i < (days + 1).toNat
    · have h := simSteps_getD_totals disease_name (diseaseStrength disease_name) [] noise
        ((days + 1).toNat) i 0 (initState patient disease_name) hi
      have hz : drugTotals [] (0 + i) = (0, 0) := by
        unfold drugTotals
        norm_num
      rw [run_simulation]
      exact ⟨by rw [h.1, hz], by rw [h.2, hz]⟩
    · rw [run_simulation, List.getD_eq_default]
      · constructor <;> rfl
      · rw [simSteps_length]; omega
  · simp [rank_treatments]

/-- The specific drug of the half-life decay check: dose 1.0, efficacy 0.5,
toxicity 0.0, half-life 12.0. -/
def decayDrug : Drug :=
  { name := none, dose := some 1.0, efficacy := some 0.5, toxicity := some 0.0,
    half_life := some 12.0 }

/-- C8: the per-day drug effect follows `efficacy * dose * exp(-ln(2)/half_life * day)`,
so for a drug with half-life 12 the total drug effect recorded at day 24 is
exactly half of the one recorded at day 12, independently of the noise stream. -/
theorem drug_effect_halves_after_half_life (patient : Patient) (disease_name : String)
    (noise : ℕ → ℝ × ℝ) :
    ((run_simulation patient disease_name [decayDrug] 24 noise).getD 12
        default).drug_effect_total =
      0.5 * (1.0 * Real.exp (-(Real.log 2 / 12) * (12 : ℝ))) ∧
    ((run_simulation patient disease_name [decayDrug] 24 noise).getD 24
        default).drug_effect_total =
      ((run_simulation patient disease_name [decayDrug] 24 noise).getD 12
        default).drug_effect_total / 2 := by
  have h24 := (simSteps_getD_totals disease_name (diseaseStrength disease_name) [decayDrug]
    noise (((24 : ℤ) + 1).toNat) 24 0 (initState patient disease_name) (by norm_num)).1
  have h12 := (simSteps_getD_totals disease_name (diseaseStrength disease_name) [decayDrug]
    noise (((24 : ℤ) + 1).toNat) 12 0 (initState patient disease_name) (by norm_num)).1
  have hmax : max (0.1 : ℝ) 12.0 = 12 := by norm_num
  have hc12 : (((0 + 12 : ℕ)) : ℝ) = 12 := by norm_num
  constructor
  · rw [run_simulation, h12]
    simp only [drugTotals, decayDrug, simulate_drug_effect, List.foldl_cons, List.foldl_nil,
      Option.getD_some]
    rw [hmax, hc12]
    norm_num
  · rw [run_simulation, h24, h12]
    simp only [drugTotals, decayDrug, simulate_drug_effect, List.foldl_cons, List.foldl_nil,
      Option.getD_some]
    rw [hmax]
    have h1 : -(Real.log 2 / 12) * (((0 + 24 : ℕ)) : ℝ) = -Real.log 2 + -Real.log 2 := by
      push_cast
      ring
    have h2 : -(Real.log 2 / 12) * (((0 + 12 : ℕ)) : ℝ) = -Real.log 2 := by
      push_cast
      ring
    rw [h1, h2, Real.exp_add, Real.exp_neg, Real.exp_log (by norm_num : (0:ℝ) < 2)]
    norm_num

/-! ### C9: the half-life floor -/

/-- C9: `simulate_drug_effect` floors the half-life at 0.1 before dividing, so
the decay-constant denominator is always at least 0.1 (hence positive — no
division by zero), and any supplied half-life of at least 0.1 is used
unchanged. -/
theorem half_life_floor (d : Drug) (t : ℕ) :
    0.1 ≤ max 0.1 (d.half_life.getD 12.0) ∧
    0 < max 0.1 (d.half_life.getD 12.0) ∧
    (∀ h ∈ d.half_life, 0.1 ≤ h → max 0.1 (d.half_life.getD 12.0) = h) ∧
    simulate_drug_effect d t =
      (d.efficacy.getD 0.5 *
        (d.dose.getD 1.0 *
          Real.exp (-(Real.log 2 / max 0.1 (d.half_life.getD 12.0)) * (t : ℝ))),
       d.toxicity.getD 0.1 *
        (d.dose.getD 1.0 *
          Real.exp (-(Real.log 2 / max 0.1 (d.half_life.getD 12.0)) * (t : ℝ)))) := by
  refine ⟨le_max_left _ _, lt_of_lt_of_le (by norm_num) (le_max_left _ _), ?_, rfl⟩
  intro h hmem hge
  have hsome : d.half_life = some h := hmem
  rw [hsome, Option.getD_some]
  exact max_eq_right hge

/-- Witness for C9: a supplied half-life of 7 (at least 0.1) is used unchanged,
and the floored half-life of a degenerate drug with half-life -3 is positive. -/
theorem half_life_floor_witness :
    max 0.1 ((⟨none, none, none, none, some 7⟩ : Drug).half_life.getD 12.0) = 7 ∧
    0 < max 0.1 ((⟨none, none, none, none, some (-3)⟩ : Drug).half_life.getD 12.0) := by
  constructor
  · exact (half_life_floor ⟨none, none, none, none, some 7⟩ 0).2.2.1 7 rfl (by norm_num)
  · exact (half_life_floor ⟨none, none, none, none, some (-3)⟩ 0).2.1

/-! ### C7 (corrected): the explainability output -/

/-- C7 counterexample: on the empty drug list `rank_treatments` returns an
empty explainability dict, which does not contain the static note — so the
note is not present for every input. -/
theorem rank_explainability_empty_cex :
    (rank_treatments [] [] ⟨none⟩ (fun _ _ => (0, 0))).2 = [] ∧
    ("note", "Synthetic ranking logic (educational only)") ∉
      (rank_treatments [] [] ⟨none⟩ (fun _ _ => (0, 0))).2 := by
  constructor
  · simp [rank_treatments]
  · simp [rank_treatments]

/-- C7 amended: for every non-empty reference sequence and non-empty drug list
the explainability dict returned by `rank_treatments` is the same static text,
independent of the input; on the empty drug list it is the empty dict instead.
(The reference sequence must be non-empty: at `sim_df = []` the per-drug run is
empty and the program's final-row access raises instead of returning.) -/
theorem rank_explainability_nonempty (sim_df : List SimRecord) (drugs : List Drug)
    (patient : Patient) (noise : ℕ → ℕ → ℝ × ℝ) (hsd : sim_df ≠ []) (h : drugs ≠ []) :
    (rank_treatments sim_df drugs patient noise).2 = staticExplainability := by
  rw [rank_treatments, if_neg (by simp [h])]

/-- Witness for the amended C7 on a concrete input: a one-record reference
sequence and one drug. -/
theorem rank_explainability_nonempty_witness :
    (rank_treatments [default] [{ name := some "a" }] ⟨none⟩ (fun _ _ => (0, 0))).2 =
      staticExplainability :=
  rank_explainability_nonempty [default] [{ name := some "a" }] ⟨none⟩ (fun _ _ => (0, 0))
    (by simp) (by simp)

/-! ### C3: the ranker scores each drug in isolation under the fallback profile -/

/-- The ranking entry for one drug as the spec describes it: run the Simulation
Engine with that single drug only, under the "Generic" fallback disease
profile, for a horizon equal to the reference sequence's length minus one, and
score the final day's record by
`(100 - viral)*0.5 + (100 - symptoms)*0.3 + avg_organ_health*0.2 - toxicity*2`. -/
noncomputable def specRankEntry (patient : Patient) (referenceLength : ℕ)
    (noise : ℕ → ℝ × ℝ) (d : Drug) : RankingEntry :=
  let final :=
    (run_simulation patient "Generic" [d] ((referenceLength : ℤ) - 1) noise).getLastD default
  { name := d.name.getD "drug"
    score := (100 - final.viral_load) * 0.5 + (100 - final.symptom_severity) * 0.3 +
      final.avg_organ_health * 0.2 - final.drug_toxicity * 2
    final_viral := final.viral_load
    final_symptoms := final.symptom_severity
    avg_organ_health := final.avg_organ_health
    drug_toxicity := final.drug_toxicity }

/-- C3: "Generic" is not in the disease table, so it resolves to strength 1.0
with empty organ weights, and for a non-empty reference sequence and a
non-empty drug list the ranking consists of exactly the spec-described per-drug
entries (as a permutation, since the output is subsequently sorted).  The
reference sequence must be non-empty: at `sim_df = []` the per-drug horizon is
`-1`, the run is empty, and the program's final-row access raises instead of
producing entries. -/
theorem rank_entries_spec (sim_df : List SimRecord) (drugs : List Drug) (patient : Patient)
    (noise : ℕ → ℕ → ℝ × ℝ) (hsd : sim_df ≠ []) (hne : drugs ≠ []) :
    DISEASE_PARAMS "Generic" = none ∧
    diseaseStrength "Generic" = 1.0 ∧
    diseaseWeights "Generic" = [] ∧
    (rank_treatments sim_df drugs patient noise).1.Perm
      (drugs.enum.map fun p => specRankEntry patient sim_df.length (noise p.1) p.2) := by
  refine ⟨rfl, rfl, rfl, ?_⟩
  rw [rank_treatments, if_neg (by simp [hne])]
  have heq : rankResults sim_df drugs patient noise =
      drugs.enum.map fun p => specRankEntry patient sim_df.length (noise p.1) p.2 := rfl
  exact (List.mergeSort_perm _ _).trans (by rw [heq])

/-- Witness for C3 on a concrete input: a one-record reference sequence and
one drug. -/
theorem rank_entries_spec_witness :
    (rank_treatments [default] [{ name := some "a" }] ⟨none⟩ (fun _ _ => (0, 0))).1.Perm
      ([({ name := some "a" } : Drug)].enum.map fun p =>
        specRankEntry ⟨none⟩ 1 ((fun _ _ => ((0 : ℝ), (0 : ℝ))) p.1) p.2) :=
  (rank_entries_spec [default] [{ name := some "a" }] ⟨none⟩ (fun _ _ => (0, 0))
    (by simp) (by simp)).2.2.2

/-! ### C6: the ranking is sorted descending with stable ties -/

/-- C6: for a non-empty reference sequence the ranking is sorted in descending
order of score, and two entries with exactly equal scores keep the relative
order they had in the pre-sort per-drug results list (which is in drug input
order) — Python's `sorted` is stable.  The reference sequence must be
non-empty: at `sim_df = []` the program's final-row access raises before any
ranking is returned. -/
theorem rank_sorted_stable (sim_df : List SimRecord) (drugs : List Drug) (patient : Patient)
    (noise : ℕ → ℕ → ℝ × ℝ) (hsd : sim_df ≠ []) :
    List.Pairwise (fun a b => b.score ≤ a.score)
      (rank_treatments sim_df drugs patient noise).1 ∧
    ∀ a b : RankingEntry, a.score = b.score →
      [a, b].Sublist (rankResults sim_df drugs patient noise) →
      [a, b].Sublist (rank_treatments sim_df drugs patient noise).1 := by
  have htrans : ∀ a b c : RankingEntry,
      scoreDesc a b = true → scoreDesc b c = true → scoreDesc a c = true := by
    intro a b c hab hbc
    simp only [scoreDesc, decide_eq_true_eq] at hab hbc ⊢
    exact hbc.trans hab
  have htotal : ∀ a b : RankingEntry, (scoreDesc a b || scoreDesc b a) = true := by
    intro a b
    simp only [scoreDesc, Bool.or_eq_true, decide_eq_true_eq]
    exact le_total b.score a.score
  by_cases hd : drugs.isEmpty
  · rw [rank_treatments, if_pos hd]
    refine ⟨List.Pairwise.nil, ?_⟩
    intro a b _ hsub
    have hnil : drugs = [] := List.isEmpty_iff.mp hd
    subst hnil
    simp [rankResults] at hsub
  · rw [rank_treatments, if_neg hd]
    constructor
    · have hs := @List.sorted_mergeSort RankingEntry scoreDesc htrans htotal
        (rankResults sim_df drugs patient noise)
      refine hs.imp ?_
      intro a b h
      simpa [scoreDesc] using h
    · intro a b heq hsub
      refine List.pair_sublist_mergeSort htrans htotal ?_ hsub
      simp only [scoreDesc, decide_eq_true_eq]
      exact le_of_eq heq.symm

/-- Witness for C6's stability clause: with a one-record reference sequence,
two identical drugs produce two equal-score entries, and both copies appear in
the sorted ranking in their input order. -/
theorem rank_sorted_stable_witness :
    [rankEntryFor ⟨none⟩ 1 (fun _ => (0, 0)) { name := some "a" },
     rankEntryFor ⟨none⟩ 1 (fun _ => (0, 0)) { name := some "a" }].Sublist
      (rank_treatments [default] [{ name := some "a" }, { name := some "a" }] ⟨none⟩
        (fun _ _ => (0, 0))).1 := by
  have hres : rankResults [default] [{ name := some "a" }, { name := some "a" }] ⟨none⟩
      (fun _ _ => (0, 0)) =
      [rankEntryFor ⟨none⟩ 1 (fun _ => (0, 0)) { name := some "a" },
       rankEntryFor ⟨none⟩ 1 (fun _ => (0, 0)) { name := some "a" }] := rfl
  refine (rank_sorted_stable [default] [{ name := some "a" }, { name := some "a" }] ⟨none⟩
    (fun _ _ => (0, 0)) (by simp)).2 _ _ rfl ?_
  rw [hres]

end DigitalTwin
